import Mathlib

/-!
# Verification of the audio-normalizer core (NirajNair/audio-normalizer)

Shallow embedding of the two Go source variants of the normalizer:

* `MainGo.*` embeds `src/main.go` (the ffmpeg-go library variant: exclusive
  `O_CREATE|O_EXCL` claim on the `.tmp` path, no context binding of the
  transcoder, no empty-output validation, `os.Rename` error ignored).
* `Part000.*` embeds `src/unnamed/part_000` (the `exec.CommandContext`
  variant: 3 s deadline bound to the request context, timeout/cancel
  discrimination, empty-output validation, rename error handled; but no
  claim marker is ever created before enqueueing).

External collaborators (the `crypto/sha256` digest and the ffmpeg transcoder
itself) are modelled as parameters/oracles: `digest` stands for the SHA-256
function, and a `ProcOracle` records the observable outcome of one transcoder
invocation (whether `cmd.Run`/`Run()` failed, the captured stderr, the state
of the job context, and the bytes present at the output path afterwards).
-/

/-- A byte, as stored in a Go `[]byte`. -/
abbrev Byte := Fin 256

/-- Go `encoding/hex` alphabet (`const hextable = "0123456789abcdef"`). -/
def hextable : String := "0123456789abcdef"

/-- High nibble character: Go `hextable[v>>4]` for a byte `v`. -/
def byteHexHi (b : Byte) : Char := hextable.data.getD (b.val / 16) '0'

/-- Low nibble character: Go `hextable[v&0x0f]` for a byte `v`. -/
def byteHexLo (b : Byte) : Char := hextable.data.getD (b.val % 16) '0'

/-- Go `hex.EncodeToString`: two lowercase hex characters per byte. -/
def hexEncodeToString (bs : List Byte) : String :=
  ⟨bs.flatMap (fun b => [byteHexHi b, byteHexLo b])⟩

/-- `sha256Hex` from both variants: `hex.EncodeToString(sha256.Sum256(b))`,
with the SHA-256 digest itself (external `crypto/sha256`) as a parameter. -/
def sha256Hex (digest : List Byte → List Byte) (b : List Byte) : String :=
  hexEncodeToString (digest b)

/-- `s.data.all (· ∈ hextable)`: every character is a lowercase hex digit. -/
def isLowerHexStr (s : String) : Bool :=
  s.data.all (fun c => hextable.data.contains c)

/-- `MaxUploadSize = 10 << 20` (10 MiB). -/
def MaxUploadSize : Nat := 10 <<< 20

/-- `SampleRate = 16000`. -/
def SampleRate : Nat := 16000

/-- `WorkerCount = 4`. -/
def WorkerCount : Nat := 4

/-- Capacity of the `jobQueue` channel (`make(chan Job, 32)`). -/
def jobQueueCap : Nat := 32

/-- ASCII case folding, the restriction of Go `strings.ToLower` used by the
extension check (all relevant extensions are ASCII). -/
def asciiToLower (c : Char) : Char :=
  if 'A' ≤ c ∧ c ≤ 'Z' then Char.ofNat (c.toNat + 32) else c

/-- Go `strings.ToLower` on the characters of a filename. -/
def stringsToLower (s : List Char) : List Char := s.map asciiToLower

/-- Scan of the reversed path used by `filepathExt`: walking from the last
character, stop with `""` at a path separator or at the front, and return
the suffix from the first `'.'` found. `acc` holds the characters already
passed, in original order. -/
def extGo (acc : List Char) : List Char → List Char
  | [] => []
  | c :: rest =>
    if c = '/' then []
    else if c = '.' then c :: acc
    else extGo (c :: acc) rest

/-- Go `filepath.Ext`: the suffix beginning at the final dot in the final
slash-separated element of the path; empty if there is no dot. -/
def filepathExt (path : List Char) : List Char := extGo [] path.reverse

/-- The `multipart.FileHeader` data the handler consumes: the client filename
and the file content bytes. -/
structure Upload where
  filename : List Char
  content : List Byte
deriving DecidableEq

/-- Observable outcome of the HTTP-layer calls the handler makes before it
touches the core: `r.ParseMultipartForm`, `r.FormFile("file")` and
`io.ReadAll(file)`. -/
structure HttpReq where
  parseFormOk : Bool
  fileField : Option Upload
  readErr : Bool
deriving DecidableEq

/-- Capacity of the slice returned by `io.ReadAll` for a body of `n` bytes:
the standard-library implementation starts from `make([]byte, 0, 512)` and
only grows it, so the returned capacity is at least `max 512 n`. -/
def readAllCap (n : Nat) : Nat := max 512 n

/-- Outcome of the validation prefix of `normalizeHandler` (identical in both
variants), up to and including the debug `fmt.Println` of `data[:16]`. -/
inductive PreOut
  | errResp (status : Nat) (code : String)
  | panicked
  | proceed (data : List Byte) (ext : List Char)
deriving DecidableEq

/-- The validation prefix of `normalizeHandler`: multipart parse, `file`
field, extension check on `strings.ToLower(filepath.Ext(...))`, read, strict
size-cap check, then the debug statement `fmt.Println(data[:16])`, which per
the Go slice rules aborts exactly when `16 > cap(data)`. -/
def preCheck (req : HttpReq) : PreOut :=
  if ¬ req.parseFormOk then .errResp 400 "INVALID_FORM"
  else
    match req.fileField with
    | none => .errResp 400 "NO_FILE"
    | some up =>
      let ext := stringsToLower (filepathExt up.filename)
      if ext ≠ ".mp3".data ∧ ext ≠ ".wav".data then
        .errResp 400 "UNSUPPORTED_FORMAT"
      else if req.readErr then .errResp 500 "READ_FAILED"
      else if up.content.length > MaxUploadSize then
        .errResp 400 "FILE_TOO_LARGE"
      else if readAllCap up.content.length < 16 then .panicked
      else .proceed up.content ext

/-- `job.ctx.Err()` as read by the worker after a failed run. -/
inductive CtxErr
  | deadlineExceeded
  | canceled
deriving DecidableEq

/-- Observable outcome of one transcoder invocation, the oracles `process`
consumes: whether `os.WriteFile` of the temp input failed, whether the ffmpeg
run returned an error, the captured stderr, the job context state, and the
bytes found at the output path afterwards (`none` = no file). -/
structure ProcOracle where
  writeFileErr : Option String
  runFails : Bool
  stderrTxt : String
  ctxErr : Option CtxErr
  outContent : Option (List Byte)
deriving DecidableEq

/-- The distinct error values a worker `Result` can carry; one constructor
per `return Result{Err: ...}` site in the two `process` variants. -/
inductive ProcErr
  | writeFile (msg : String)
  | timedOut
  | cancelled
  | ffmpegFailed (stderr : String)
  | statFailed
  | emptyOutput
  | ffmpegGo (stderr : String)
deriving DecidableEq

/-- The Go `Result` struct (the unused `Duration` field is omitted). -/
structure GoResult where
  size : Nat
  sha : String
  err : Option ProcErr
deriving DecidableEq

/-- `process` of `src/unnamed/part_000`: temp input write, ffmpeg via
`exec.CommandContext(job.ctx, ...)`, discrimination of deadline/cancel on
failure, then `os.Stat` + empty-output validation, then size and hash of the
output. -/
def Part000.process (digest : List Byte → List Byte) (o : ProcOracle) : GoResult :=
  match o.writeFileErr with
  | some e => { size := 0, sha := "", err := some (.writeFile e) }
  | none =>
    if o.runFails then
      match o.ctxErr with
      | some .deadlineExceeded => { size := 0, sha := "", err := some .timedOut }
      | some .canceled => { size := 0, sha := "", err := some .cancelled }
      | none => { size := 0, sha := "", err := some (.ffmpegFailed o.stderrTxt) }
    else
      match o.outContent with
      | none => { size := 0, sha := "", err := some .statFailed }
      | some c =>
        if c.length = 0 then { size := 0, sha := "", err := some .emptyOutput }
        else { size := c.length, sha := hexEncodeToString (digest c), err := none }

/-- `process` of `src/main.go`: temp input write, ffmpeg-go `Run()` (not
bound to `job.ctx`, which is ignored), a single generic error on failure, and
no output validation: `os.Open`/`io.Copy` errors are discarded, so a missing
output yields size 0 and the hash of the empty stream, and an empty output
yields size 0 — in both cases with `Err = nil`. -/
def MainGo.process (digest : List Byte → List Byte) (o : ProcOracle) : GoResult :=
  match o.writeFileErr with
  | some e => { size := 0, sha := "", err := some (.writeFile e) }
  | none =>
    if o.runFails then
      { size := 0, sha := "", err := some (.ffmpegGo o.stderrTxt) }
    else
      match o.outContent with
      | none => { size := 0, sha := hexEncodeToString (digest []), err := none }
      | some c => { size := c.length, sha := hexEncodeToString (digest c), err := none }

/-- Go `ternary` helper from both variants. -/
def ternary {α : Type} (cond : Bool) (a b : α) : α := if cond then a else b

/-- The on-disk state of the store directory that the handler can observe and
mutate, keyed by ContentKey (the 64-char hash; the constant `StorageDir` and
the `.wav`/`.tmp` suffixes are common to every path so the key identifies the
path). `entries` maps a key to the byte size of the finalized file at
`StorageDir/<key>.wav`; `claims` lists the keys whose `.tmp` marker path
currently exists. -/
structure Store where
  entries : List (String × Nat)
  claims : List String
deriving DecidableEq

/-- Association-list lookup modelling `os.Stat` on the finalized path. -/
def findEntry : List (String × Nat) → String → Option Nat
  | [], _ => none
  | (k, v) :: t, key => if key = k then some v else findEntry t key

/-- `os.Remove(tmpPath)`: the claim marker for `key` no longer exists. -/
def removeClaim (st : Store) (key : String) : Store :=
  { st with claims := st.claims.filter (fun c => decide (c ≠ key)) }

/-- The fields of the success JSON body that the claims talk about
(`transactionId`, timestamps and the filenames are omitted as pure
formatting). -/
structure Response where
  fileId : String
  sampleRate : Nat
  channels : Nat
  encoding : String
  sizeBytes : Nat
  status : String
deriving DecidableEq

/-- What the handler hands back to the HTTP layer. -/
inductive HandlerOut
  | errResp (status : Nat) (code : String)
  | panicked
  | ok (r : Response)
deriving DecidableEq

/-- `respond` from both variants: `info, _ := os.Stat(path)` followed by
`info.Size()`, so a failed stat leaves `info` nil and the size call panics;
otherwise the JSON body carries the hash as `fileId`, the fixed normalized
metadata, the stat size, and `ternary(skipped, "skipped", "done")`. -/
def respond (hash : String) (statSize : Option Nat) (skipped : Bool) : HandlerOut :=
  match statSize with
  | none => .panicked
  | some sz =>
    .ok { fileId := hash, sampleRate := SampleRate, channels := 1,
          encoding := "pcm_s16le", sizeBytes := sz,
          status := ternary skipped "skipped" "done" }

/-- Result of one big-step handler run: the rendered outcome, the final store
state, and whether a `Job` was sent to `jobQueue`. -/
structure HandleRes where
  out : HandlerOut
  store : Store
  enqueued : Bool
deriving DecidableEq

/-- `normalizeHandler` of `src/unnamed/part_000` after validation, run to
completion against a quiescent store (its single-request big-step semantics;
the interleaved small-step semantics is `Part000Sys.step` below). There is no
claim step: after the `os.Stat` miss the job is enqueued directly. The `.tmp`
marker comes to exist exactly when ffmpeg wrote output bytes there
(`o.outContent.isSome`, only reachable when the temp input write succeeded);
on a result error it is removed before the error response; on success
`os.Rename` promotes it (failing if it is absent or `renameOk = false`), and
a rename failure removes it and reports `FS_ERROR`. -/
def Part000.handleCore (digest : List Byte → List Byte) (pre : PreOut)
    (st : Store) (o : ProcOracle) (renameOk : Bool) : HandleRes :=
  match pre with
  | .errResp s c => { out := .errResp s c, store := st, enqueued := false }
  | .panicked => { out := .panicked, store := st, enqueued := false }
  | .proceed data _ =>
    let hash := sha256Hex digest data
    match findEntry st.entries hash with
    | some sz => { out := respond hash (some sz) true, store := st, enqueued := false }
    | none =>
      let res := Part000.process digest o
      let st1 : Store :=
        if o.writeFileErr = none ∧ o.outContent.isSome
        then { st with claims := hash :: st.claims } else st
      match res.err with
      | some _ =>
        { out := .errResp 500 "FFMPEG_FAILED", store := removeClaim st1 hash,
          enqueued := true }
      | none =>
        if renameOk ∧ hash ∈ st1.claims then
          let st2 : Store :=
            { entries := (hash, res.size) :: st1.entries,
              claims := st1.claims.filter (fun c => decide (c ≠ hash)) }
          { out := respond hash (findEntry st2.entries hash) false, store := st2,
            enqueued := true }
        else
          { out := .errResp 500 "FS_ERROR", store := removeClaim st1 hash,
            enqueued := true }

/-- `normalizeHandler` of `src/unnamed/part_000` (big-step). -/
def Part000.normalizeHandler (digest : List Byte → List Byte) (req : HttpReq)
    (st : Store) (o : ProcOracle) (renameOk : Bool) : HandleRes :=
  Part000.handleCore digest (preCheck req) st o renameOk

/-- `normalizeHandler` of `src/main.go` after validation, run to completion
against a quiescent store. After the `os.Stat` miss it attempts the exclusive
create `os.OpenFile(tmpPath, O_CREATE|O_EXCL|O_WRONLY)`: if the marker
already exists it responds "skipped" — stat-ing the (absent) finalized path,
so `respond` panics on the nil `FileInfo`; `claimFsErr` covers any other
create failure (`FS_ERROR`). With the claim acquired the job runs; on a
result error the marker is removed before `FFMPEG_FAILED`; on success the
`os.Rename` error is IGNORED: when the rename fails the marker stays and the
handler still renders "done" from a stat of the absent finalized path. -/
def MainGo.handleCore (digest : List Byte → List Byte) (pre : PreOut)
    (st : Store) (o : ProcOracle) (renameOk : Bool) (claimFsErr : Bool) : HandleRes :=
  match pre with
  | .errResp s c => { out := .errResp s c, store := st, enqueued := false }
  | .panicked => { out := .panicked, store := st, enqueued := false }
  | .proceed data _ =>
    let hash := sha256Hex digest data
    match findEntry st.entries hash with
    | some sz => { out := respond hash (some sz) true, store := st, enqueued := false }
    | none =>
      if hash ∈ st.claims then
        { out := respond hash none true, store := st, enqueued := false }
      else if claimFsErr then
        { out := .errResp 500 "FS_ERROR", store := st, enqueued := false }
      else
        let st1 : Store := { st with claims := hash :: st.claims }
        let res := MainGo.process digest o
        match res.err with
        | some _ =>
          { out := .errResp 500 "FFMPEG_FAILED", store := removeClaim st1 hash,
            enqueued := true }
        | none =>
          if renameOk then
            let st2 : Store :=
              { entries := (hash, res.size) :: st1.entries,
                claims := st1.claims.filter (fun c => decide (c ≠ hash)) }
            { out := respond hash (findEntry st2.entries hash) false, store := st2,
              enqueued := true }
          else
            { out := respond hash (findEntry st1.entries hash) false, store := st1,
              enqueued := true }

/-- `normalizeHandler` of `src/main.go` (big-step). -/
def MainGo.normalizeHandler (digest : List Byte → List Byte) (req : HttpReq)
    (st : Store) (o : ProcOracle) (renameOk : Bool) (claimFsErr : Bool) : HandleRes :=
  MainGo.handleCore digest (preCheck req) st o renameOk claimFsErr

/-- Phase of one in-flight request of the `part_000` variant, between the
`os.Stat(outPath)` check and the final response. -/
inductive Part000Sys.Phase
  | start
  | enqueued
  | gotOk (tok : Nat)
  | gotErr
  | finished (skipped : Bool)
  | failed (code : String)
deriving DecidableEq

/-- Generic association-list lookup for the small-step stores. -/
def lookupA {β : Type} : List (String × β) → String → Option β
  | [], _ => none
  | (k, v) :: t, key => if key = k then some v else lookupA t key

/-- File creation or replacement at a key (what `os.Rename` onto an existing
destination, or ffmpeg writing the output file, does). -/
def setA {β : Type} (l : List (String × β)) (k : String) (v : β) : List (String × β) :=
  (k, v) :: l.filter (fun p => decide (p.1 ≠ k))

/-- Global state of the `part_000` variant with several in-flight requests:
the request list (payload bytes and phase, indexed by position), the
finalized entries and the `.tmp` files of the store directory — each mapping
a ContentKey to an abstract token identifying which transcoder run produced
the bytes there — the FIFO `jobQueue` contents, and the log of transcoder
invocations (the key of each `cmd.Run` executed). -/
structure Part000Sys.St where
  reqs : List (List Byte × Part000Sys.Phase)
  entries : List (String × Nat)
  tmp : List (String × Nat)
  queue : List Nat
  invocations : List String
deriving DecidableEq

/-- Scheduler choice of what a dequeued job's transcoder run produced:
temp-input write failure, ffmpeg failure, or success with output token `tok`
(the External Transcoder's output is unspecified, so each run may produce
fresh bytes). -/
inductive Part000Sys.WOut
  | writeFail
  | runFail
  | ok (tok : Nat)
deriving DecidableEq

/-- Interleaving actions of the `part_000` system: request `i` runs from the
`os.Stat` check through the (blocking) `jobQueue <- job` send; a worker
dequeues the head job and runs `process` to the result send; request `i`
consumes its result and runs the rest of the handler. -/
inductive Part000Sys.Act
  | stat (i : Nat)
  | work (o : Part000Sys.WOut)
  | finish (i : Nat)
deriving DecidableEq

/-- One interleaved step of the `part_000` variant (`none` when the action is
not enabled, e.g. sending to a full queue). `stat i`: on a hit the request
responds "skipped" with no job; on a miss it enqueues — no claim marker is
created at any point. `work o`: the head job is dequeued and processed; a run
(failed or not) appends the job's key to the invocation log, and a successful
run writes the output token to the shared `.tmp` path of that key. `finish i`:
an error result removes the `.tmp` marker and reports `FFMPEG_FAILED`; a
success result renames `.tmp` onto the finalized path — replacing whatever
is there — or reports `FS_ERROR` when the `.tmp` file is gone. -/
def Part000Sys.step (digest : List Byte → List Byte) (s : Part000Sys.St)
    (a : Part000Sys.Act) : Option Part000Sys.St :=
  match a with
  | .stat i =>
    match s.reqs[i]? with
    | some (d, .start) =>
      let key := sha256Hex digest d
      match lookupA s.entries key with
      | some _ => some { s with reqs := s.reqs.set i (d, .finished true) }
      | none =>
        if s.queue.length < jobQueueCap then
          some { s with reqs := s.reqs.set i (d, .enqueued),
                        queue := s.queue ++ [i] }
        else none
    | _ => none
  | .work o =>
    match s.queue with
    | [] => none
    | i :: qrest =>
      match s.reqs[i]? with
      | some (d, .enqueued) =>
        let key := sha256Hex digest d
        match o with
        | .writeFail =>
          some { s with queue := qrest, reqs := s.reqs.set i (d, .gotErr) }
        | .runFail =>
          some { s with queue := qrest,
                        invocations := s.invocations ++ [key],
                        reqs := s.reqs.set i (d, .gotErr) }
        | .ok tok =>
          some { s with queue := qrest,
                        invocations := s.invocations ++ [key],
                        tmp := setA s.tmp key tok,
                        reqs := s.reqs.set i (d, .gotOk tok) }
      | _ => none
  | .finish i =>
    match s.reqs[i]? with
    | some (d, .gotErr) =>
      let key := sha256Hex digest d
      some { s with tmp := s.tmp.filter (fun p => decide (p.1 ≠ key)),
                    reqs := s.reqs.set i (d, .failed "FFMPEG_FAILED") }
    | some (d, .gotOk _) =>
      let key := sha256Hex digest d
      match lookupA s.tmp key with
      | some t =>
        some { s with entries := setA s.entries key t,
                      tmp := s.tmp.filter (fun p => decide (p.1 ≠ key)),
                      reqs := s.reqs.set i (d, .finished false) }
      | none => some { s with reqs := s.reqs.set i (d, .failed "FS_ERROR") }
    | _ => none

/-- Run a schedule of actions from a state. -/
def Part000Sys.run (digest : List Byte → List Byte) (s : Part000Sys.St) :
    List Part000Sys.Act → Option Part000Sys.St
  | [] => some s
  | a :: rest =>
    match Part000Sys.step digest s a with
    | none => none
    | some s2 => Part000Sys.run digest s2 rest

/-- A concrete digest instance for closed counterexample runs (the violations
exhibited below hold for every digest function, since byte-identical payloads
get the same key under any function). -/
def digest0 : List Byte → List Byte := fun _ => [(171 : Byte)]

/-- A concrete payload submitted twice concurrently. -/
def dupData : List Byte := [1, 2, 3]

/-- Initial state: two concurrent requests carrying byte-identical payloads,
empty store, empty queue. -/
def dupInit : Part000Sys.St :=
  { reqs := [(dupData, .start), (dupData, .start)],
    entries := [], tmp := [], queue := [], invocations := [] }

/-- Schedule: both requests pass the `os.Stat` check before either job runs;
then both jobs are dequeued and transcoded. -/
def dupSchedC1 : List Part000Sys.Act :=
  [.stat 0, .stat 1, .work (.ok 7), .work (.ok 8)]

/-- Schedule prefix for the rewrite trace: request 0 transcodes (token 7) and
finalizes its entry. -/
def dupSchedC8a : List Part000Sys.Act :=
  [.stat 0, .stat 1, .work (.ok 7), .finish 0]

/-- Full rewrite trace: after request 0 finalized, request 1's job transcodes
(token 8) and request 1's rename replaces the finalized entry. -/
def dupSchedC8b : List Part000Sys.Act :=
  dupSchedC8a ++ [.work (.ok 8), .finish 1]

/-- A well-formed `.wav` upload request carrying the given bytes. -/
def wavReq (content : List Byte) : HttpReq :=
  { parseFormOk := true,
    fileField := some { filename := "a.wav".data, content := content },
    readErr := false }

/-- A transcoder-invocation oracle: clean success with output bytes `c`. -/
def okOracle (c : List Byte) : ProcOracle :=
  { writeFileErr := none, runFails := false, stderrTxt := "",
    ctxErr := none, outContent := some c }

/-- A transcoder-invocation oracle: the run failed with the given stderr
while the job context was in the given state. -/
def failOracle (serr : String) (ce : Option CtxErr) : ProcOracle :=
  { writeFileErr := none, runFails := true, stderrTxt := serr,
    ctxErr := ce, outContent := none }

/-- A transcoder-invocation oracle: the run reported success but wrote no
output file at all. -/
def noOutOracle : ProcOracle :=
  { writeFileErr := none, runFails := false, stderrTxt := "",
    ctxErr := none, outContent := none }

/-- A store holding one finalized entry of size 7 for the key of `[1,2,3]`
under `digest0` (used to exercise the "skipped" path concretely). -/
def c7store : Store :=
  { entries := [(sha256Hex digest0 [1, 2, 3], 7)], claims := [] }

/-- The concrete "skipped" response rendered from `c7store`. -/
def c7resp : Response :=
  { fileId := sha256Hex digest0 [1, 2, 3], sampleRate := 16000, channels := 1,
    encoding := "pcm_s16le", sizeBytes := 7, status := "skipped" }

set_option maxRecDepth 8192 in
theorem byteHex_mem_hextable :
    ∀ b : Byte, byteHexHi b ∈ hextable.data ∧ byteHexLo b ∈ hextable.data := by
  decide

/-- Every string `hex.EncodeToString` produces consists of lowercase hex
digits only. -/
theorem hexEncodeToString_lowerHex (bs : List Byte) :
    isLowerHexStr (hexEncodeToString bs) = true := by
  show (bs.flatMap (fun b => [byteHexHi b, byteHexLo b])).all
      (fun c => hextable.data.contains c) = true
  induction bs with
  | nil => rfl
  | cons b t ih =>
    have hb := byteHex_mem_hextable b
    rw [List.flatMap_cons, List.all_append, ih]
    simp [List.all_cons, hb.1, hb.2]

theorem findEntry_cons_self (k : String) (v : Nat) (l : List (String × Nat)) :
    findEntry ((k, v) :: l) k = some v := by simp [findEntry]

theorem not_mem_filter_ne (l : List String) (k : String) :
    k ∉ l.filter (fun c => decide (c ≠ k)) := by
  simp [List.mem_filter]

/-- Skip path of the `part_000` handler: a finalized entry short-circuits to
a "skipped" response with the entry's size, enqueueing nothing. -/
theorem part000_skip (digest : List Byte → List Byte) (req : HttpReq) (st : Store)
    (o : ProcOracle) (ren : Bool) (data : List Byte) (ext : List Char) (sz : Nat)
    (hpre : preCheck req = .proceed data ext)
    (hent : findEntry st.entries (sha256Hex digest data) = some sz) :
    Part000.normalizeHandler digest req st o ren =
      { out := .ok { fileId := sha256Hex digest data, sampleRate := 16000,
                     channels := 1, encoding := "pcm_s16le", sizeBytes := sz,
                     status := "skipped" },
        store := st, enqueued := false } := by
  simp only [Part000.normalizeHandler]
  rw [hpre]
  simp only [Part000.handleCore]
  simp [hent, respond, ternary, SampleRate]

/-- Skip path of the `main.go` handler: identical to `part_000`. -/
theorem maingo_skip (digest : List Byte → List Byte) (req : HttpReq) (st : Store)
    (o : ProcOracle) (ren cfe : Bool) (data : List Byte) (ext : List Char) (sz : Nat)
    (hpre : preCheck req = .proceed data ext)
    (hent : findEntry st.entries (sha256Hex digest data) = some sz) :
    MainGo.normalizeHandler digest req st o ren cfe =
      { out := .ok { fileId := sha256Hex digest data, sampleRate := 16000,
                     channels := 1, encoding := "pcm_s16le", sizeBytes := sz,
                     status := "skipped" },
        store := st, enqueued := false } := by
  simp only [MainGo.normalizeHandler]
  rw [hpre]
  simp only [MainGo.handleCore]
  simp [hent, respond, ternary, SampleRate]

/-- Successful fresh path of the `part_000` handler: no entry yet, clean
transcode producing nonempty `c`, rename succeeds: the response is "done"
with the output size, the entry is finalized with that size, no claim marker
survives, and one job was enqueued. -/
theorem part000_success (digest : List Byte → List Byte) (req : HttpReq) (st : Store)
    (c : List Byte) (data : List Byte) (ext : List Char)
    (hpre : preCheck req = .proceed data ext)
    (hent : findEntry st.entries (sha256Hex digest data) = none)
    (hc : c ≠ []) :
    Part000.normalizeHandler digest req st (okOracle c) true =
      { out := .ok { fileId := sha256Hex digest data, sampleRate := 16000,
                     channels := 1, encoding := "pcm_s16le",
                     sizeBytes := c.length, status := "done" },
        store := { entries := (sha256Hex digest data, c.length) :: st.entries,
                   claims := (sha256Hex digest data :: st.claims).filter
                     (fun x => decide (x ≠ sha256Hex digest data)) },
        enqueued := true } := by
  have hlen : ¬ (c.length = 0) := by simpa using hc
  simp only [Part000.normalizeHandler]
  rw [hpre]
  simp only [Part000.handleCore]
  simp [hent, Part000.process, okOracle, hlen, respond, ternary, SampleRate,
    findEntry_cons_self, List.mem_cons, findEntry]

/-- Successful fresh path of the `main.go` handler (claim acquired, rename
succeeds). -/
theorem maingo_success (digest : List Byte → List Byte) (req : HttpReq) (st : Store)
    (c : List Byte) (data : List Byte) (ext : List Char)
    (hpre : preCheck req = .proceed data ext)
    (hent : findEntry st.entries (sha256Hex digest data) = none)
    (hcl : sha256Hex digest data ∉ st.claims) :
    MainGo.normalizeHandler digest req st (okOracle c) true false =
      { out := .ok { fileId := sha256Hex digest data, sampleRate := 16000,
                     channels := 1, encoding := "pcm_s16le",
                     sizeBytes := c.length, status := "done" },
        store := { entries := (sha256Hex digest data, c.length) :: st.entries,
                   claims := (sha256Hex digest data :: st.claims).filter
                     (fun x => decide (x ≠ sha256Hex digest data)) },
        enqueued := true } := by
  simp only [MainGo.normalizeHandler]
  rw [hpre]
  simp only [MainGo.handleCore]
  simp [hent, hcl, MainGo.process, okOracle, respond, ternary, SampleRate,
    findEntry_cons_self, findEntry]

/-- Error path of the `part_000` handler: a fresh request whose worker result
carries an error ends in `FFMPEG_FAILED` with no claim marker left and the
finalized entries untouched. -/
theorem part000_error (digest : List Byte → List Byte) (req : HttpReq) (st : Store)
    (o : ProcOracle) (ren : Bool) (data : List Byte) (ext : List Char) (e : ProcErr)
    (hpre : preCheck req = .proceed data ext)
    (hent : findEntry st.entries (sha256Hex digest data) = none)
    (herr : (Part000.process digest o).err = some e) :
    (Part000.normalizeHandler digest req st o ren).out = .errResp 500 "FFMPEG_FAILED" ∧
    sha256Hex digest data ∉ (Part000.normalizeHandler digest req st o ren).store.claims ∧
    (Part000.normalizeHandler digest req st o ren).store.entries = st.entries := by
  simp only [Part000.normalizeHandler]
  rw [hpre]
  simp only [Part000.handleCore]
  simp only [hent, herr]
  refine ⟨by trivial, ?_, ?_⟩
  · simp only [removeClaim]
    split <;> exact not_mem_filter_ne _ _
  · simp only [removeClaim]
    split <;> rfl

/-- Error path of the `main.go` handler: same cleanup behavior. -/
theorem maingo_error (digest : List Byte → List Byte) (req : HttpReq) (st : Store)
    (o : ProcOracle) (ren : Bool) (data : List Byte) (ext : List Char) (e : ProcErr)
    (hpre : preCheck req = .proceed data ext)
    (hent : findEntry st.entries (sha256Hex digest data) = none)
    (hcl : sha256Hex digest data ∉ st.claims)
    (herr : (MainGo.process digest o).err = some e) :
    (MainGo.normalizeHandler digest req st o ren false).out = .errResp 500 "FFMPEG_FAILED" ∧
    sha256Hex digest data ∉ (MainGo.normalizeHandler digest req st o ren false).store.claims ∧
    (MainGo.normalizeHandler digest req st o ren false).store.entries = st.entries := by
  simp only [MainGo.normalizeHandler]
  rw [hpre]
  simp only [MainGo.handleCore]
  simp only [hent, hcl, if_false, if_neg hcl, herr]
  refine ⟨?_, ?_, ?_⟩
  · simp [hcl]
  · simp [hcl, removeClaim, List.mem_filter]
  · simp [hcl, removeClaim]

/-- Passing all validations yields `proceed` — in particular the debug slice
`data[:16]` never aborts, since `readAllCap` is at least 512. -/
theorem preCheck_proceed (req : HttpReq) (up : Upload)
    (h1 : req.parseFormOk = true) (h2 : req.fileField = some up)
    (h3 : req.readErr = false)
    (h4 : stringsToLower (filepathExt up.filename) = ".mp3".data ∨
          stringsToLower (filepathExt up.filename) = ".wav".data)
    (h5 : up.content.length ≤ MaxUploadSize) :
    preCheck req = .proceed up.content (stringsToLower (filepathExt up.filename)) := by
  have hext : ¬ (stringsToLower (filepathExt up.filename) ≠ ".mp3".data ∧
                 stringsToLower (filepathExt up.filename) ≠ ".wav".data) := by
    rcases h4 with h4 | h4 <;> rw [h4] <;> decide
  have hsize : ¬ (up.content.length > MaxUploadSize) := by omega
  have hcap : ¬ (readAllCap up.content.length < 16) := by
    have := Nat.le_max_left 512 up.content.length
    unfold readAllCap
    omega
  simp only [preCheck, h1, h2, h3]
  simp [hext, hsize, hcap]

/-- A strictly oversized payload is rejected with `FILE_TOO_LARGE` by the
validation prefix (all earlier validations passing). -/
theorem preCheck_too_large (req : HttpReq) (up : Upload)
    (h1 : req.parseFormOk = true) (h2 : req.fileField = some up)
    (h3 : req.readErr = false)
    (h4 : stringsToLower (filepathExt up.filename) = ".mp3".data ∨
          stringsToLower (filepathExt up.filename) = ".wav".data)
    (hlt : MaxUploadSize < up.content.length) :
    preCheck req = .errResp 400 "FILE_TOO_LARGE" := by
  have hext : ¬ (stringsToLower (filepathExt up.filename) ≠ ".mp3".data ∧
                 stringsToLower (filepathExt up.filename) ≠ ".wav".data) := by
    rcases h4 with h4 | h4 <;> rw [h4] <;> decide
  simp only [preCheck, h1, h2, h3]
  simp [hext, hlt]

/-- The post-validation `part_000` handler always renders an error response
or a JSON body — never the nil-`FileInfo` panic. -/
theorem part000_core_no_panic (digest : List Byte → List Byte) (data : List Byte)
    (ext : List Char) (st : Store) (o : ProcOracle) (ren : Bool) :
    (Part000.handleCore digest (.proceed data ext) st o ren).out ≠ .panicked := by
  simp only [Part000.handleCore]
  cases hfe : findEntry st.entries (sha256Hex digest data) with
  | some sz => simp [hfe, respond, ternary]
  | none =>
    simp only [hfe]
    cases herr : (Part000.process digest o).err with
    | some e => simp [herr]
    | none =>
      simp only [herr]
      split <;> split <;> simp [respond, findEntry, ternary]

/-- Any JSON body the post-validation `part_000` handler renders carries the
content hash as `fileId`, the fixed normalized metadata, and status
"skipped" exactly when a finalized entry already existed. -/
theorem part000_ok_fields (digest : List Byte → List Byte) (data : List Byte)
    (ext : List Char) (st : Store) (o : ProcOracle) (ren : Bool) (r : Response)
    (hok : (Part000.handleCore digest (.proceed data ext) st o ren).out = .ok r) :
    r.fileId = sha256Hex digest data ∧ r.sampleRate = SampleRate ∧
    r.channels = 1 ∧ r.encoding = "pcm_s16le" ∧
    r.status = (if (findEntry st.entries (sha256Hex digest data)).isSome
                then "skipped" else "done") := by
  simp only [Part000.handleCore] at hok
  cases hfe : findEntry st.entries (sha256Hex digest data) with
  | some sz =>
    rw [hfe] at hok
    simp [respond, ternary] at hok
    subst hok
    simp
  | none =>
    rw [hfe] at hok
    rcases o with ⟨wfe, rf, serr, ce, oc⟩
    cases wfe with
    | some e => simp [Part000.process] at hok
    | none =>
      cases rf with
      | true =>
        rcases ce with _ | ce2
        · simp [Part000.process] at hok
        · cases ce2 <;> simp [Part000.process] at hok
      | false =>
        rcases oc with _ | c
        · simp [Part000.process] at hok
        · by_cases hl : c.length = 0
          · simp [Part000.process, hl] at hok
          · cases ren with
            | false => simp [Part000.process, hl] at hok
            | true =>
              simp [Part000.process, hl, respond, findEntry, ternary] at hok
              subst hok
              simp

/-- Same shape statement for the `main.go` handler. -/
theorem maingo_ok_fields (digest : List Byte → List Byte) (data : List Byte)
    (ext : List Char) (st : Store) (o : ProcOracle) (ren cfe : Bool) (r : Response)
    (hok : (MainGo.handleCore digest (.proceed data ext) st o ren cfe).out = .ok r) :
    r.fileId = sha256Hex digest data ∧ r.sampleRate = SampleRate ∧
    r.channels = 1 ∧ r.encoding = "pcm_s16le" ∧
    r.status = (if (findEntry st.entries (sha256Hex digest data)).isSome
                then "skipped" else "done") := by
  simp only [MainGo.handleCore] at hok
  cases hfe : findEntry st.entries (sha256Hex digest data) with
  | some sz =>
    rw [hfe] at hok
    simp [respond, ternary] at hok
    subst hok
    simp
  | none =>
    rw [hfe] at hok
    by_cases hcl : sha256Hex digest data ∈ st.claims
    · simp [hcl, respond] at hok
    · cases cfe with
      | true => simp [hcl] at hok
      | false =>
        rcases o with ⟨wfe, rf, serr, ce, oc⟩
        cases wfe with
        | some e => simp [hcl, MainGo.process] at hok
        | none =>
          cases rf with
          | true => simp [hcl, MainGo.process] at hok
          | false =>
            cases ren with
            | false =>
              rcases oc with _ | c <;>
                simp [hcl, MainGo.process, respond, hfe] at hok
            | true =>
              rcases oc with _ | c <;>
                · simp [hcl, MainGo.process, respond, findEntry, ternary] at hok
                  subst hok
                  simp

/-- C1: the per-ContentKey single-flight guarantee fails in the
`src/unnamed/part_000` variant: starting from an empty store with two
concurrent requests carrying byte-identical payloads, the interleaving in
which both requests pass the `os.Stat` check before either job runs is
reachable, and it enqueues two Jobs and invokes the transcoder twice for the
same ContentKey (the variant never creates a claim marker before
enqueueing). -/
theorem spec_c1_part000_double_invocation :
    dupInit.reqs.map Prod.fst = [dupData, dupData] ∧
    (Part000Sys.run digest0 dupInit dupSchedC1).map Part000Sys.St.invocations
      = some [sha256Hex digest0 dupData, sha256Hex digest0 dupData] := by
  exact ⟨rfl, by decide⟩

/-- C8: StorageEntry immutability fails in the `src/unnamed/part_000`
variant: after the `dupSchedC8a` prefix request 0 has finalized the entry
for the duplicated content (output token 7); the two further steps of
`dupSchedC8b` — request 1's job transcoding and request 1's `os.Rename` —
replace the finalized entry with token 8, rewriting the finalized path. -/
theorem spec_c8_part000_finalized_rewritten :
    dupSchedC8b = dupSchedC8a ++ [.work (.ok 8), .finish 1] ∧
    (Part000Sys.run digest0 dupInit dupSchedC8a).map
        (fun s => lookupA s.entries (sha256Hex digest0 dupData)) = some (some 7) ∧
    (Part000Sys.run digest0 dupInit dupSchedC8b).map
        (fun s => lookupA s.entries (sha256Hex digest0 dupData)) = some (some 8) := by
  exact ⟨rfl, by decide, by decide⟩

/-- C4: finalize-failure handling fails in the `src/main.go` variant: on a
valid fresh upload whose transcode succeeds but whose `os.Rename` fails, the
handler ignores the error — the claim marker is left behind, no storage
error is reported, and `respond` dereferences the nil `FileInfo` of the
absent finalized path (a panic), instead of abandoning the claim and
reporting a storage error. The `part_000` variant behaves as the claim
states: `FS_ERROR` with the marker removed. -/
theorem spec_c4_maingo_rename_error_ignored :
    (MainGo.normalizeHandler digest0 (wavReq [1, 2, 3]) { entries := [], claims := [] }
        (okOracle [5, 6]) false false).out = .panicked ∧
    sha256Hex digest0 [1, 2, 3] ∈
      (MainGo.normalizeHandler digest0 (wavReq [1, 2, 3]) { entries := [], claims := [] }
        (okOracle [5, 6]) false false).store.claims ∧
    (MainGo.normalizeHandler digest0 (wavReq [1, 2, 3]) { entries := [], claims := [] }
        (okOracle [5, 6]) false false).store.entries = [] ∧
    (Part000.normalizeHandler digest0 (wavReq [1, 2, 3]) { entries := [], claims := [] }
        (okOracle [5, 6]) false).out = .errResp 500 "FS_ERROR" ∧
    sha256Hex digest0 [1, 2, 3] ∉
      (Part000.normalizeHandler digest0 (wavReq [1, 2, 3]) { entries := [], claims := [] }
        (okOracle [5, 6]) false).store.claims := by
  refine ⟨by decide, by decide, by decide, by decide, by decide⟩

/-- C5: empty-output rejection fails in the `src/main.go` variant: when the
transcoder reports success but the output is empty — or even missing — the
worker's Result carries no error (and size 0), because `main.go` performs no
output validation and discards the `os.Open`/`io.Copy` errors. The
`part_000` variant rejects both cases as the claim states. -/
theorem spec_c5_maingo_accepts_empty_output :
    (MainGo.process digest0 (okOracle [])).err = none ∧
    (MainGo.process digest0 (okOracle [])).size = 0 ∧
    (MainGo.process digest0 noOutOracle).err = none ∧
    (Part000.process digest0 (okOracle [])).err = some ProcErr.emptyOutput ∧
    (Part000.process digest0 noOutOracle).err = some ProcErr.statFailed := by
  refine ⟨by decide, by decide, by decide, by decide, by decide⟩

/-- C6 (counterexample): in the `src/main.go` variant a transcoder failure
while the job context has exceeded its deadline is reported as the generic
`ffmpeg: <stderr>` error, not as the "timed out" discriminator the claim
requires — `main.go` never consults `job.ctx`. -/
theorem spec_c6_counterexample :
    (failOracle "boom" (some CtxErr.deadlineExceeded)).runFails = true ∧
    (failOracle "boom" (some CtxErr.deadlineExceeded)).ctxErr
      = some CtxErr.deadlineExceeded ∧
    (MainGo.process digest0 (failOracle "boom" (some CtxErr.deadlineExceeded))).err
      = some (ProcErr.ffmpegGo "boom") ∧
    (MainGo.process digest0 (failOracle "boom" (some CtxErr.deadlineExceeded))).err
      ≠ some ProcErr.timedOut := by
  refine ⟨rfl, rfl, by decide, by decide⟩

/-- C6 (amended): in the `src/unnamed/part_000` variant, a failed transcoder
invocation is reported with the three-way discrimination: "ffmpeg timed out"
when the job context exceeded its deadline, "request cancelled" when it was
canceled, and the generic "ffmpeg failed: <stderr>" otherwise — and the
three error values are pairwise distinct. -/
theorem spec_c6_part000_discrimination (digest : List Byte → List Byte)
    (serr : String) (ce : Option CtxErr) :
    (Part000.process digest (failOracle serr ce)).err =
      some (match ce with
            | some CtxErr.deadlineExceeded => ProcErr.timedOut
            | some CtxErr.canceled => ProcErr.cancelled
            | none => ProcErr.ffmpegFailed serr) ∧
    ProcErr.timedOut ≠ ProcErr.cancelled ∧
    (∀ s : String, ProcErr.timedOut ≠ ProcErr.ffmpegFailed s ∧
      ProcErr.cancelled ≠ ProcErr.ffmpegFailed s) := by
  refine ⟨?_, by simp, fun s => ⟨by simp, by simp⟩⟩
  rcases ce with _ | ce2
  · rfl
  · cases ce2 <;> rfl

/-- C2: idempotence of normalization, in both variants: after a request for
content `data` completes successfully (finalizing its StorageEntry), any
later request resubmitting the byte-identical payload — under any filename
passing validation, any transcoder oracle and any rename outcome — returns
status "skipped" with the same file identifier and the same output size as
the first "done" response, enqueues no Job, and leaves the store unchanged. -/
theorem spec_c2_idempotent_resubmission (digest : List Byte → List Byte)
    (req req2 : HttpReq) (st : Store) (c data : List Byte) (ext ext2 : List Char)
    (hpre : preCheck req = .proceed data ext)
    (hpre2 : preCheck req2 = .proceed data ext2)
    (hent : findEntry st.entries (sha256Hex digest data) = none)
    (hcl : sha256Hex digest data ∉ st.claims)
    (hc : c ≠ []) :
    (Part000.normalizeHandler digest req st (okOracle c) true).out =
      .ok { fileId := sha256Hex digest data, sampleRate := 16000, channels := 1,
            encoding := "pcm_s16le", sizeBytes := c.length, status := "done" } ∧
    (∀ o2 ren2,
      Part000.normalizeHandler digest req2
          (Part000.normalizeHandler digest req st (okOracle c) true).store o2 ren2 =
        { out := .ok { fileId := sha256Hex digest data, sampleRate := 16000,
                       channels := 1, encoding := "pcm_s16le",
                       sizeBytes := c.length, status := "skipped" },
          store := (Part000.normalizeHandler digest req st (okOracle c) true).store,
          enqueued := false }) ∧
    (MainGo.normalizeHandler digest req st (okOracle c) true false).out =
      .ok { fileId := sha256Hex digest data, sampleRate := 16000, channels := 1,
            encoding := "pcm_s16le", sizeBytes := c.length, status := "done" } ∧
    (∀ o2 ren2 cfe2,
      MainGo.normalizeHandler digest req2
          (MainGo.normalizeHandler digest req st (okOracle c) true false).store o2 ren2 cfe2 =
        { out := .ok { fileId := sha256Hex digest data, sampleRate := 16000,
                       channels := 1, encoding := "pcm_s16le",
                       sizeBytes := c.length, status := "skipped" },
          store := (MainGo.normalizeHandler digest req st (okOracle c) true false).store,
          enqueued := false }) := by
  have h1 := part000_success digest req st c data ext hpre hent hc
  have h2 := maingo_success digest req st c data ext hpre hent hcl
  refine ⟨by rw [h1], fun o2 ren2 => ?_, by rw [h2], fun o2 ren2 cfe2 => ?_⟩
  · rw [h1]
    exact part000_skip digest req2 _ o2 ren2 data ext2 c.length hpre2
      (findEntry_cons_self _ _ _)
  · rw [h2]
    exact maingo_skip digest req2 _ o2 ren2 cfe2 data ext2 c.length hpre2
      (findEntry_cons_self _ _ _)

/-- C2 witness: a concrete first normalization of `[1,2,3]` responds "done"
with size 2, and the concrete resubmission responds "skipped" with the same
identifier and size without enqueueing. -/
theorem spec_c2_witness :
    (Part000.normalizeHandler digest0 (wavReq [1, 2, 3]) { entries := [], claims := [] }
        (okOracle [5, 6]) true).out =
      .ok { fileId := sha256Hex digest0 [1, 2, 3], sampleRate := 16000, channels := 1,
            encoding := "pcm_s16le", sizeBytes := [5, 6].length, status := "done" } ∧
    Part000.normalizeHandler digest0 (wavReq [1, 2, 3])
        (Part000.normalizeHandler digest0 (wavReq [1, 2, 3]) { entries := [], claims := [] }
          (okOracle [5, 6]) true).store (failOracle "x" none) false =
      { out := .ok { fileId := sha256Hex digest0 [1, 2, 3], sampleRate := 16000,
                     channels := 1, encoding := "pcm_s16le",
                     sizeBytes := [5, 6].length, status := "skipped" },
        store := (Part000.normalizeHandler digest0 (wavReq [1, 2, 3])
          { entries := [], claims := [] } (okOracle [5, 6]) true).store,
        enqueued := false } ∧
    (MainGo.normalizeHandler digest0 (wavReq [1, 2, 3]) { entries := [], claims := [] }
        (okOracle [5, 6]) true false).out =
      .ok { fileId := sha256Hex digest0 [1, 2, 3], sampleRate := 16000, channels := 1,
            encoding := "pcm_s16le", sizeBytes := [5, 6].length, status := "done" } ∧
    MainGo.normalizeHandler digest0 (wavReq [1, 2, 3])
        (MainGo.normalizeHandler digest0 (wavReq [1, 2, 3]) { entries := [], claims := [] }
          (okOracle [5, 6]) true false).store (failOracle "x" none) false false =
      { out := .ok { fileId := sha256Hex digest0 [1, 2, 3], sampleRate := 16000,
                     channels := 1, encoding := "pcm_s16le",
                     sizeBytes := [5, 6].length, status := "skipped" },
        store := (MainGo.normalizeHandler digest0 (wavReq [1, 2, 3])
          { entries := [], claims := [] } (okOracle [5, 6]) true false).store,
        enqueued := false } := by
  have h := spec_c2_idempotent_resubmission digest0 (wavReq [1, 2, 3]) (wavReq [1, 2, 3])
    { entries := [], claims := [] } [5, 6] [1, 2, 3] ".wav".data ".wav".data
    (by decide) (by decide) rfl (by decide) (by decide)
  exact ⟨h.1, h.2.1 (failOracle "x" none) false, h.2.2.1,
    h.2.2.2 (failOracle "x" none) false false⟩

/-- C3: cleanup on failure, in both variants: when the worker result of a
fresh request carries an error (transcoder failure, empty output, timeout or
cancellation all produce one), the handler responds `FFMPEG_FAILED`, the
claim marker for that content no longer exists, and the finalized entries
are exactly as before the attempt — no entry was created by it. -/
theorem spec_c3_cleanup_on_failure (digest : List Byte → List Byte)
    (req : HttpReq) (st : Store) (o : ProcOracle) (ren : Bool)
    (data : List Byte) (ext : List Char) (e em : ProcErr)
    (hpre : preCheck req = .proceed data ext)
    (hent : findEntry st.entries (sha256Hex digest data) = none)
    (hcl : sha256Hex digest data ∉ st.claims)
    (herrP : (Part000.process digest o).err = some e)
    (herrM : (MainGo.process digest o).err = some em) :
    (Part000.normalizeHandler digest req st o ren).out = .errResp 500 "FFMPEG_FAILED" ∧
    sha256Hex digest data ∉ (Part000.normalizeHandler digest req st o ren).store.claims ∧
    (Part000.normalizeHandler digest req st o ren).store.entries = st.entries ∧
    (MainGo.normalizeHandler digest req st o ren false).out = .errResp 500 "FFMPEG_FAILED" ∧
    sha256Hex digest data ∉
      (MainGo.normalizeHandler digest req st o ren false).store.claims ∧
    (MainGo.normalizeHandler digest req st o ren false).store.entries = st.entries := by
  have hp := part000_error digest req st o ren data ext e hpre hent herrP
  have hm := maingo_error digest req st o ren data ext em hpre hent hcl herrM
  exact ⟨hp.1, hp.2.1, hp.2.2, hm.1, hm.2.1, hm.2.2⟩

/-- C3 witness: a concrete failing transcode of a fresh `[1,2,3]` upload in
both variants: `FFMPEG_FAILED`, no claim marker left, entries untouched. -/
theorem spec_c3_witness :
    (Part000.normalizeHandler digest0 (wavReq [1, 2, 3]) { entries := [], claims := [] }
        (failOracle "boom" none) true).out = .errResp 500 "FFMPEG_FAILED" ∧
    sha256Hex digest0 [1, 2, 3] ∉
      (Part000.normalizeHandler digest0 (wavReq [1, 2, 3]) { entries := [], claims := [] }
        (failOracle "boom" none) true).store.claims ∧
    (Part000.normalizeHandler digest0 (wavReq [1, 2, 3]) { entries := [], claims := [] }
        (failOracle "boom" none) true).store.entries = [] ∧
    (MainGo.normalizeHandler digest0 (wavReq [1, 2, 3]) { entries := [], claims := [] }
        (failOracle "boom" none) true false).out = .errResp 500 "FFMPEG_FAILED" ∧
    sha256Hex digest0 [1, 2, 3] ∉
      (MainGo.normalizeHandler digest0 (wavReq [1, 2, 3]) { entries := [], claims := [] }
        (failOracle "boom" none) true false).store.claims ∧
    (MainGo.normalizeHandler digest0 (wavReq [1, 2, 3]) { entries := [], claims := [] }
        (failOracle "boom" none) true false).store.entries = [] := by
  exact spec_c3_cleanup_on_failure digest0 (wavReq [1, 2, 3])
    { entries := [], claims := [] } (failOracle "boom" none) true [1, 2, 3]
    ".wav".data (ProcErr.ffmpegFailed "boom") (ProcErr.ffmpegGo "boom")
    (by decide) rfl (by decide) (by decide) (by decide)

/-- C7: response content correctness, in both variants: every successful
JSON body carries `fileId` equal to the hex encoding of the SHA-256 digest
of the raw uploaded bytes — a string of lowercase hex digits —
`sampleRate = 16000`, `channels = 1`, `encoding = "pcm_s16le"`, and status
"skipped" exactly when the finalized entry already existed ("done" on the
first successful call); moreover a first successful call finalizes the entry,
so an identical repeat call takes the "skipped" branch. -/
theorem spec_c7_response_content (digest : List Byte → List Byte)
    (req : HttpReq) (st : Store) (o : ProcOracle) (ren cfe : Bool)
    (data : List Byte) (ext : List Char) (r : Response)
    (hpre : preCheck req = .proceed data ext) :
    ((Part000.normalizeHandler digest req st o ren).out = .ok r →
      r.fileId = sha256Hex digest data ∧ isLowerHexStr r.fileId = true ∧
      r.sampleRate = 16000 ∧ r.channels = 1 ∧ r.encoding = "pcm_s16le" ∧
      r.status = (if (findEntry st.entries (sha256Hex digest data)).isSome
                  then "skipped" else "done")) ∧
    ((MainGo.normalizeHandler digest req st o ren cfe).out = .ok r →
      r.fileId = sha256Hex digest data ∧ isLowerHexStr r.fileId = true ∧
      r.sampleRate = 16000 ∧ r.channels = 1 ∧ r.encoding = "pcm_s16le" ∧
      r.status = (if (findEntry st.entries (sha256Hex digest data)).isSome
                  then "skipped" else "done")) ∧
    (∀ c : List Byte, c ≠ [] →
      findEntry st.entries (sha256Hex digest data) = none →
      findEntry (Part000.normalizeHandler digest req st (okOracle c) true).store.entries
        (sha256Hex digest data) = some c.length) := by
  refine ⟨fun hok => ?_, fun hok => ?_, fun c hc hent => ?_⟩
  · rw [Part000.normalizeHandler, hpre] at hok
    have h := part000_ok_fields digest data ext st o ren r hok
    refine ⟨h.1, ?_, h.2.1, h.2.2.1, h.2.2.2.1, h.2.2.2.2⟩
    rw [h.1]
    exact hexEncodeToString_lowerHex (digest data)
  · rw [MainGo.normalizeHandler, hpre] at hok
    have h := maingo_ok_fields digest data ext st o ren cfe r hok
    refine ⟨h.1, ?_, h.2.1, h.2.2.1, h.2.2.2.1, h.2.2.2.2⟩
    rw [h.1]
    exact hexEncodeToString_lowerHex (digest data)
  · rw [part000_success digest req st c data ext hpre hent hc]
    exact findEntry_cons_self _ _ _

/-- C7 witness: the concrete "skipped" response for a resubmission against
`c7store` carries the hash as `fileId` (lowercase hex), the fixed metadata,
and status "skipped"; and a first successful call against the empty store
finalizes an entry of the output's size. -/
theorem spec_c7_witness :
    c7resp.fileId = sha256Hex digest0 [1, 2, 3] ∧
    isLowerHexStr c7resp.fileId = true ∧
    c7resp.sampleRate = 16000 ∧ c7resp.channels = 1 ∧
    c7resp.encoding = "pcm_s16le" ∧
    c7resp.status = (if (findEntry c7store.entries (sha256Hex digest0 [1, 2, 3])).isSome
                     then "skipped" else "done") ∧
    findEntry (Part000.normalizeHandler digest0 (wavReq [1, 2, 3])
        { entries := [], claims := [] } (okOracle [5, 6]) true).store.entries
      (sha256Hex digest0 [1, 2, 3]) = some [5, 6].length := by
  have h := spec_c7_response_content digest0 (wavReq [1, 2, 3]) c7store
    (failOracle "" none) true false [1, 2, 3] ".wav".data c7resp (by decide)
  have h1 := h.1 (by decide)
  have h2 := spec_c7_response_content digest0 (wavReq [1, 2, 3])
    { entries := [], claims := [] } (failOracle "" none) true false [1, 2, 3]
    ".wav".data c7resp (by decide)
  exact ⟨h1.1, h1.2.1, h1.2.2.1, h1.2.2.2.1, h1.2.2.2.2.1, h1.2.2.2.2.2,
    h2.2.2 [5, 6] (by decide) rfl⟩

/-- C9: totality on short payloads: any upload that passes all validations —
well-formed multipart form, file field present, extension `.mp3`/`.wav`
case-insensitively, size within the cap, with the payload length otherwise
arbitrary (in particular shorter than 16 bytes) — passes the debug
`fmt.Println(data[:16])` statement rather than aborting there, because
`io.ReadAll` returns a slice of capacity at least 512 and a Go slice
expression is checked against the capacity; the validation prefix yields
`proceed`, and the exec-variant handler then always renders a response. -/
theorem spec_c9_short_payload_total (req : HttpReq) (up : Upload)
    (h1 : req.parseFormOk = true) (h2 : req.fileField = some up)
    (h3 : req.readErr = false)
    (h4 : stringsToLower (filepathExt up.filename) = ".mp3".data ∨
          stringsToLower (filepathExt up.filename) = ".wav".data)
    (h5 : up.content.length ≤ MaxUploadSize) :
    preCheck req = .proceed up.content (stringsToLower (filepathExt up.filename)) ∧
    ∀ digest st o ren,
      (Part000.normalizeHandler digest req st o ren).out ≠ .panicked := by
  have hp := preCheck_proceed req up h1 h2 h3 h4 h5
  refine ⟨hp, fun digest st o ren => ?_⟩
  rw [Part000.normalizeHandler, hp]
  exact part000_core_no_panic digest up.content _ st o ren

/-- C9 witness: a 3-byte `.wav` upload (shorter than the 16-byte debug
slice) passes validation and the exec-variant handler renders a response. -/
theorem spec_c9_witness :
    preCheck (wavReq [1, 2, 3]) =
      .proceed [1, 2, 3] (stringsToLower (filepathExt "a.wav".data)) ∧
    (Part000.normalizeHandler digest0 (wavReq [1, 2, 3]) { entries := [], claims := [] }
        (okOracle [5, 6]) true).out ≠ .panicked := by
  have h := spec_c9_short_payload_total (wavReq [1, 2, 3])
    { filename := "a.wav".data, content := [1, 2, 3] }
    rfl rfl rfl (Or.inr (by decide)) (by decide)
  exact ⟨h.1, h.2 digest0 { entries := [], claims := [] } (okOracle [5, 6]) true⟩

/-- C10: the size-cap boundary is strict, in both variants: a payload of
exactly `MaxUploadSize` bytes is not rejected — validation yields `proceed`,
so the handler goes on to hashing — while `FILE_TOO_LARGE` is returned
exactly for payloads strictly larger than `MaxUploadSize`, and in that case
no Job is enqueued and the store is untouched. -/
theorem spec_c10_size_cap_strict (req : HttpReq) (up : Upload)
    (h1 : req.parseFormOk = true) (h2 : req.fileField = some up)
    (h3 : req.readErr = false)
    (h4 : stringsToLower (filepathExt up.filename) = ".mp3".data ∨
          stringsToLower (filepathExt up.filename) = ".wav".data) :
    (up.content.length = MaxUploadSize →
      preCheck req = .proceed up.content (stringsToLower (filepathExt up.filename))) ∧
    (preCheck req = .errResp 400 "FILE_TOO_LARGE" ↔
      MaxUploadSize < up.content.length) ∧
    (MaxUploadSize < up.content.length →
      ∀ digest st o ren cfe,
        Part000.normalizeHandler digest req st o ren =
          { out := .errResp 400 "FILE_TOO_LARGE", store := st, enqueued := false } ∧
        MainGo.normalizeHandler digest req st o ren cfe =
          { out := .errResp 400 "FILE_TOO_LARGE", store := st, enqueued := false }) := by
  refine ⟨fun hlen => preCheck_proceed req up h1 h2 h3 h4 (le_of_eq hlen), ?_, ?_⟩
  · constructor
    · intro h
      by_contra hnlt
      rw [preCheck_proceed req up h1 h2 h3 h4 (by omega)] at h
      cases h
    · intro hlt
      exact preCheck_too_large req up h1 h2 h3 h4 hlt
  · intro hlt digest st o ren cfe
    have he := preCheck_too_large req up h1 h2 h3 h4 hlt
    rw [Part000.normalizeHandler, MainGo.normalizeHandler, he]
    exact ⟨rfl, rfl⟩

/-- C10 witness: a payload of exactly 10485760 bytes passes validation; a
payload of 10485761 bytes is rejected with `FILE_TOO_LARGE` by both
variants, enqueueing nothing and leaving the store untouched. -/
theorem spec_c10_witness :
    preCheck (wavReq (List.replicate MaxUploadSize 0)) =
      .proceed (List.replicate MaxUploadSize 0)
        (stringsToLower (filepathExt "a.wav".data)) ∧
    Part000.normalizeHandler digest0 (wavReq (List.replicate (MaxUploadSize + 1) 0))
        { entries := [], claims := [] } (okOracle [5]) true =
      { out := .errResp 400 "FILE_TOO_LARGE",
        store := { entries := [], claims := [] }, enqueued := false } ∧
    MainGo.normalizeHandler digest0 (wavReq (List.replicate (MaxUploadSize + 1) 0))
        { entries := [], claims := [] } (okOracle [5]) true false =
      { out := .errResp 400 "FILE_TOO_LARGE",
        store := { entries := [], claims := [] }, enqueued := false } := by
  have hA := spec_c10_size_cap_strict (wavReq (List.replicate MaxUploadSize 0))
    { filename := "a.wav".data, content := List.replicate MaxUploadSize 0 }
    rfl rfl rfl (Or.inr (by decide))
  have hB := spec_c10_size_cap_strict (wavReq (List.replicate (MaxUploadSize + 1) 0))
    { filename := "a.wav".data, content := List.replicate (MaxUploadSize + 1) 0 }
    rfl rfl rfl (Or.inr (by decide))
  have hBlt : MaxUploadSize < (List.replicate (MaxUploadSize + 1) (0 : Byte)).length := by
    simp
  have hb := hB.2.2 hBlt digest0 { entries := [], claims := [] } (okOracle [5]) true false
  exact ⟨hA.1 (by simp), hb.1, hb.2⟩
